import Mathlib

/-!
Verification of the timer-app core (timer queue, execution controller, run log,
preference store) as a shallow embedding of the JavaScript sources
(`timer-model.js`, `main.js`, `ui.js`, `audio.js`).

Modelling conventions:
* DOM elements (the `block` of a timer) are modelled by abstract numeric
  identities; the purely visual `timeText` node, CSS, and animation plumbing
  are omitted - they never influence queue/log/controller state.
* Timestamps are natural numbers (milliseconds since the Unix epoch, as JS
  `Date.now()` / `new Date()` deliver them).  Every `Date` sample taken inside
  one synchronous event handler is collapsed to the single instant `now` at
  which the handler runs.
* Each browser event handler is modelled as a pure function on the application
  state, run to quiescence (including completion callbacks that the handler
  schedules, such as the fade-out `onComplete` that advances the queue).
* JS `Date` subtraction (`endedAt - startedAt`) coerces `null` to `0`; the
  embedding mirrors this with `Option.getD 0`.
* The JavaScript builtins `Date.prototype.toISOString` and its inverse parse,
  used by the run-log export, are modelled down to the proleptic-Gregorian
  calendar for the nonnegative-epoch range that the app produces.
-/

namespace TimerApp

/-- A queued timer as created by `createTimerBlock` in `ui.js`:
`{ block, duration, label, timeText }`.  The `block` DOM node is modelled by an
abstract numeric identity; `timeText` is a display-only child node and is
omitted. -/
structure Timer where
  block : Nat
  duration : Nat
  label : String
deriving DecidableEq, Repr

/-- A run-log entry as passed to `addToRunLog`:
`{ label, plannedDuration, startedAt, endedAt, actualElapsed }`.
`actualElapsed` is the JS number `endedAt - startedAt` (an `Int`:
date subtraction can in principle be negative). -/
structure RunLogEntry where
  label : String
  plannedDuration : Nat
  startedAt : Nat
  endedAt : Nat
  actualElapsed : Int
deriving DecidableEq, Repr

/-- The runtime record of the currently running timer.  In the source,
`setRunningTimer({ block, interval, tween })` stores the block together with
the live interval whose closure holds `duration`, `label` and
`startTime = Date.now()` captured by `startTimerAnimation`; the embedding
carries those closure values explicitly. -/
structure ActiveRun where
  block : Nat
  duration : Nat
  label : String
  startTime : Nat
deriving DecidableEq, Repr

/-- The module-level `state` object of `timer-model.js` (the variant that also
owns `soundLevel`), together with the `localStorage` slot
`'timerSoundLevel'` that `setSoundLevel`/`loadSoundLevel` use
(modelled as `storedSoundLevel`). -/
structure AppState where
  timerQueue : List Timer
  runLog : List RunLogEntry
  isRunning : Bool
  runningTimer : Option ActiveRun
  runningTimerStart : Option Nat
  soundLevel : String
  storedSoundLevel : Option String
deriving DecidableEq, Repr

/-- The initial `state` literal of `timer-model.js` (empty queue and log, not
running, no active timer, sound level `'off'`), with an empty persistence
slot. -/
def initState : AppState :=
  { timerQueue := []
    runLog := []
    isRunning := false
    runningTimer := none
    runningTimerStart := none
    soundLevel := "off"
    storedSoundLevel := none }

/-- Model of `removeTimerFromQueue` from `timer-model.js`: `findIndex` on the
block reference followed by `splice(idx, 1)`; returns whether an entry was
removed, together with the resulting queue. -/
def removeTimerFromQueue (block : Nat) (q : List Timer) : Bool × List Timer :=
  match q.findIdx? (fun t => t.block == block) with
  | some idx => (true, q.eraseIdx idx)
  | none => (false, q)

/-- Model of `getSoundLevels` from `audio.js`: `Object.keys(SOUND_LEVELS)` in
insertion order. -/
def getSoundLevels : List String := ["off", "soft", "medium", "loud"]

/-- Model of `setSoundLevel` from `timer-model.js`.  Validates against
`getSoundLevels()`; an unrecognized level produces a `console.warn` and is
normalized to `'off'`.  The `localStorage.setItem` call sits in a
`try`/`catch` whose failure is reported by a second `console.warn`; the
parameter `persistOk` says whether the store succeeds.  Returns the new state
and the list of emitted warnings. -/
def setSoundLevel (level : String) (persistOk : Bool) (s : AppState) :
    AppState × List String :=
  let p := getSoundLevels.contains level
  let validatedLevel := if p then level else "off"
  let w1 : List String :=
    if p then [] else
      ["Invalid sound level: " ++ level ++ ". Using 'off' as default."]
  let s1 := { s with soundLevel := validatedLevel }
  if persistOk then
    ({ s1 with storedSoundLevel := some validatedLevel }, w1)
  else
    (s1, w1 ++ ["Failed to save sound level to localStorage:"])

/-- The user-visible output of one event handler: the argument of a
`window.alert` call (if any) and the `console.warn` messages emitted. -/
structure Output where
  alert : Option String
  warns : List String
deriving DecidableEq, Repr

/-- No alert, no warnings. -/
def noOutput : Output := ⟨none, []⟩

/-- Model of `startNextTimer` from `main.js`.  If the queue is empty it resets
the running state (`setRunning(false)`, `setRunningTimer(null)`; note that
`runningTimerStart` is left as-is); otherwise it shifts the front timer off
the queue and hands it to `startTimerAnimation`, which records
`setRunningTimerStart(new Date())`, captures `startTime = Date.now()` in the
interval closure, and stores the running-timer handle.  `now` is the instant
at which the handler runs. -/
def startNextTimer (now : Nat) (s : AppState) : AppState :=
  match s.timerQueue with
  | [] =>
      { s with isRunning := false, runningTimer := none }
  | t :: rest =>
      { s with
          timerQueue := rest
          runningTimerStart := some now
          runningTimer := some ⟨t.block, t.duration, t.label, now⟩ }

/-- Model of `handleStartQueue` from `main.js`: rejected with the alert
`"A timer is already running"` while running; a bare `return` when the queue
is empty; otherwise `setRunning(true)` followed by `startNextTimer()`. -/
def handleStartQueue (now : Nat) (s : AppState) : AppState × Output :=
  if s.isRunning then
    (s, ⟨some "A timer is already running", []⟩)
  else if s.timerQueue.isEmpty then
    (s, noOutput)
  else
    (startNextTimer now { s with isRunning := true }, noOutput)

/-- The click listener installed by `createDeleteButton` in `ui.js` for the
timer block `block`.  If that block is the currently running timer, the
countdown is stopped, a cancellation entry
`{ label, plannedDuration: duration, startedAt, endedAt, actualElapsed }`
is appended to the run log, the handle and start timestamp are cleared, and
`onDelete()` (which is `startNextTimer`) runs.  Otherwise the block is removed
from the queue via `removeTimerFromQueue`.  The closure's `label` and
`duration` are those stored in the active handle for the same block. -/
def deleteButtonClick (block : Nat) (now : Nat) (s : AppState) : AppState :=
  match s.runningTimer with
  | some rt =>
      if rt.block == block then
        let startedAt := s.runningTimerStart.getD 0
        let entry : RunLogEntry :=
          ⟨rt.label, rt.duration, startedAt, now, (now : Int) - (startedAt : Int)⟩
        let s1 := { s with
            runLog := s.runLog ++ [entry]
            runningTimer := none
            runningTimerStart := none }
        startNextTimer now s1
      else
        { s with timerQueue := (removeTimerFromQueue block s.timerQueue).2 }
  | none =>
      { s with timerQueue := (removeTimerFromQueue block s.timerQueue).2 }

/-- The `setInterval` callback of `startTimerAnimation` in `ui.js`, run at
instant `now`, together with the fade-out `onComplete` callback it schedules
when the countdown has finished.  `remaining = endTime - Date.now() <= 0`
is `startTime + duration <= now`.  On completion it plays the alert sound and
notification (external side effects), appends a completion entry via
`logTimerCompletion` (with `startedAt = getRunningTimerStart()` and
`endedAt = new Date()`), then the fade-out clears the handle and start
timestamp and invokes the callback `startNextTimer`.  While the countdown has
not finished the callback only refreshes the displayed remaining time, and
with no interval alive it cannot fire at all. -/
def intervalTick (now : Nat) (s : AppState) : AppState :=
  match s.runningTimer with
  | some rt =>
      if rt.startTime + rt.duration ≤ now then
        let startedAt := s.runningTimerStart.getD 0
        let entry : RunLogEntry :=
          ⟨rt.label, rt.duration, startedAt, now, (now : Int) - (startedAt : Int)⟩
        let s1 := { s with
            runLog := s.runLog ++ [entry]
            runningTimer := none
            runningTimerStart := none }
        startNextTimer now s1
      else s
  | none => s

/-- Model of `handleClearAll` from `main.js`: if `isRunning() && runningTimer`
it stops the interval/tween, removes the block, and clears the handle and
running flag (but not `runningTimerStart`); then it clears the visual bars and
empties the queue.  The run log is not touched. -/
def handleClearAll (s : AppState) : AppState :=
  let s1 :=
    if s.isRunning && s.runningTimer.isSome then
      { s with runningTimer := none, isRunning := false }
    else s
  { s1 with timerQueue := [] }

/-- Model of `handleClearLog` from `main.js`: `clearRunLog()` plus a UI
refresh. -/
def handleClearLog (s : AppState) : AppState := { s with runLog := [] }

/-- Model of `createTimerBlock` from `ui.js` (used by both preset buttons and
the validated custom form): builds a block and appends the timer to the
queue. -/
def createTimerBlock (block duration : Nat) (label : String) (s : AppState) :
    AppState :=
  { s with timerQueue := s.timerQueue ++ [⟨block, duration, label⟩] }

/-- The externally triggered events of the application, each handled to
quiescence by `step`. -/
inductive Event where
  | addTimer (block duration : Nat) (label : String)
  | startQueue
  | deleteClick (block : Nat)
  | tick
  | clearAll
  | clearLog
  | exportLog
  | soundChange (level : String) (persistOk : Bool)
deriving DecidableEq, Repr

/-- One event handled at instant `now`: the dispatch table set up by
`initializeApp` in `main.js` (plus the delete-button listeners and the
countdown interval).  `handleExportLog` only reads `exportRunLogAsJSON()` and
triggers a download, leaving the state untouched. -/
def step (e : Event) (now : Nat) (s : AppState) : AppState × Output :=
  match e with
  | .addTimer b d l => (createTimerBlock b d l s, noOutput)
  | .startQueue => handleStartQueue now s
  | .deleteClick b => (deleteButtonClick b now s, noOutput)
  | .tick => (intervalTick now s, noOutput)
  | .clearAll => (handleClearAll s, noOutput)
  | .clearLog => (handleClearLog s, noOutput)
  | .exportLog => (s, noOutput)
  | .soundChange lvl ok =>
      let r := setSoundLevel lvl ok s
      (r.1, ⟨none, r.2⟩)

/-- The states reachable from the initial state by any sequence of events at
arbitrary instants. -/
inductive Reachable : AppState → Prop
  | init : Reachable initState
  | next (e : Event) (now : Nat) {s : AppState} :
      Reachable s → Reachable (step e now s).1

/-- The controller invariants maintained by every handler: the `isRunning`
flag agrees with the presence of the running-timer handle, and while a timer
runs, `runningTimerStart` holds the instant recorded in the handle. -/
def Inv (s : AppState) : Prop :=
  (s.isRunning = true ↔ s.runningTimer.isSome = true) ∧
    (∀ rt, s.runningTimer = some rt → s.runningTimerStart = some rt.startTime)

/-! ### ISO-8601 timestamps

Model of the JavaScript builtin `Date.prototype.toISOString` (used by
`exportRunLogAsJSON`) for nonnegative epoch instants whose year fits the
plain `YYYY-MM-DDTHH:mm:ss.sssZ` format, together with the inverse parse of
that format.  Dates follow the proleptic Gregorian calendar in UTC. -/

/-- Gregorian leap-year rule. -/
def isLeap (y : Nat) : Bool := decide ((y % 4 = 0 ∧ y % 100 ≠ 0) ∨ y % 400 = 0)

/-- Number of days in calendar year `y`. -/
def daysInYear (y : Nat) : Nat := if isLeap y then 366 else 365

/-- Number of days from 1970-01-01 to the first day of year `y`
(for `y ≥ 1970`), in closed form. -/
def yearStart (y : Nat) : Nat :=
  (365 * y + (y + 3) / 4 + (y + 399) / 400) - ((y + 99) / 100 + 719528)

/-- Fuel-bounded year peeling: starting at year `y`, consume whole years from
the day count `z`; returns the final year and the day-of-year remainder. -/
def yearAndDoyAux : Nat → Nat → Nat → Nat × Nat
  | 0, y, z => (y, z)
  | fuel + 1, y, z =>
      if daysInYear y ≤ z then yearAndDoyAux fuel (y + 1) (z - daysInYear y)
      else (y, z)

/-- Year and day-of-year of day number `z` (counted from the epoch of
year `y`); `z + 1` units of fuel always suffice since every year consumes at
least 365 days. -/
def yearAndDoy (y z : Nat) : Nat × Nat := yearAndDoyAux (z + 1) y z

/-- Month lengths of a (leap or common) year. -/
def monthDays (leap : Bool) : List Nat :=
  [31, if leap then 29 else 28, 31, 30, 31, 30, 31, 31, 30, 31, 30, 31]

/-- Peel whole months off a day-of-year; returns the 1-based month and
day-of-month. -/
def monthAndDom : List Nat → Nat → Nat → Nat × Nat
  | [], m, z => (m, z + 1)
  | len :: rest, m, z =>
      if len ≤ z then monthAndDom rest (m + 1) (z - len) else (m, z + 1)

/-- Day-of-year on which month `m` (1-based) begins. -/
def monthStart (leap : Bool) (m : Nat) : Nat := ((monthDays leap).take (m - 1)).sum

/-- Calendar date `(year, month, day)` of epoch day number `z`. -/
def civilFromDays (z : Nat) : Nat × Nat × Nat :=
  let yd := yearAndDoy 1970 z
  let md := monthAndDom (monthDays (isLeap yd.1)) 1 yd.2
  (yd.1, md.1, md.2)

/-- Epoch day number of the calendar date `(y, m, d)`. -/
def daysFromCivil (y m d : Nat) : Nat :=
  yearStart y + monthStart (isLeap y) m + (d - 1)

/-- Decimal digit character. -/
def digitChar (d : Nat) : Char := Char.ofNat (48 + d)

/-- Value of a decimal digit character, if it is one. -/
def digitVal (c : Char) : Option Nat :=
  if 48 ≤ c.toNat ∧ c.toNat ≤ 57 then some (c.toNat - 48) else none

/-- Two-digit zero-padded decimal rendering. -/
def pad2 (n : Nat) : List Char := [digitChar (n / 10), digitChar (n % 10)]

/-- Three-digit zero-padded decimal rendering. -/
def pad3 (n : Nat) : List Char :=
  [digitChar (n / 100), digitChar (n / 10 % 10), digitChar (n % 10)]

/-- Four-digit zero-padded decimal rendering. -/
def pad4 (n : Nat) : List Char :=
  [digitChar (n / 1000), digitChar (n / 100 % 10), digitChar (n / 10 % 10),
    digitChar (n % 10)]

/-- Read exactly two decimal digits. -/
def read2 (cs : List Char) : Option (Nat × List Char) :=
  match cs with
  | a :: b :: rest =>
      match digitVal a, digitVal b with
      | some x, some y => some (x * 10 + y, rest)
      | _, _ => none
  | _ => none

/-- Read exactly three decimal digits. -/
def read3 (cs : List Char) : Option (Nat × List Char) :=
  match cs with
  | a :: b :: c :: rest =>
      match digitVal a, digitVal b, digitVal c with
      | some x, some y, some z => some ((x * 10 + y) * 10 + z, rest)
      | _, _, _ => none
  | _ => none

/-- Read exactly four decimal digits. -/
def read4 (cs : List Char) : Option (Nat × List Char) :=
  match cs with
  | a :: b :: c :: d :: rest =>
      match digitVal a, digitVal b, digitVal c, digitVal d with
      | some x, some y, some z, some w =>
          some (((x * 10 + y) * 10 + z) * 10 + w, rest)
      | _, _, _, _ => none
  | _ => none

/-- Consume one expected character. -/
def expectChar (c : Char) (cs : List Char) : Option (List Char) :=
  match cs with
  | x :: rest => if x = c then some rest else none
  | [] => none

/-- Character sequence of the ISO-8601 rendering
`YYYY-MM-DDTHH:mm:ss.sssZ` of epoch instant `t` (in milliseconds). -/
def isoChars (t : Nat) : List Char :=
  let z := t / 86400000
  let rem := t % 86400000
  let c := civilFromDays z
  let h := rem / 3600000
  let mi := rem % 3600000 / 60000
  let sec := rem % 60000 / 1000
  let ms := rem % 1000
  pad4 c.1 ++ '-' :: (pad2 c.2.1 ++ '-' :: (pad2 c.2.2 ++ 'T' ::
    (pad2 h ++ ':' :: (pad2 mi ++ ':' :: (pad2 sec ++ '.' :: (pad3 ms ++ ['Z']))))))

/-- Model of the builtin `Date.prototype.toISOString`. -/
def toISOString (t : Nat) : String := String.mk (isoChars t)

/-- Parse the character sequence of an ISO-8601 timestamp back into epoch
milliseconds. -/
def parseIsoChars (cs : List Char) : Option Nat :=
  match read4 cs with
  | none => none
  | some py =>
  match expectChar '-' py.2 with
  | none => none
  | some cs1 =>
  match read2 cs1 with
  | none => none
  | some pm =>
  match expectChar '-' pm.2 with
  | none => none
  | some cs2 =>
  match read2 cs2 with
  | none => none
  | some pd =>
  match expectChar 'T' pd.2 with
  | none => none
  | some cs3 =>
  match read2 cs3 with
  | none => none
  | some ph =>
  match expectChar ':' ph.2 with
  | none => none
  | some cs4 =>
  match read2 cs4 with
  | none => none
  | some pmi =>
  match expectChar ':' pmi.2 with
  | none => none
  | some cs5 =>
  match read2 cs5 with
  | none => none
  | some psec =>
  match expectChar '.' psec.2 with
  | none => none
  | some cs6 =>
  match read3 cs6 with
  | none => none
  | some pms =>
  match expectChar 'Z' pms.2 with
  | none => none
  | some cs7 =>
  match cs7 with
  | [] => some (daysFromCivil py.1 pm.1 pd.1 * 86400000 +
      (((ph.1 * 60 + pmi.1) * 60 + psec.1) * 1000 + pms.1))
  | _ => none

/-- Parse an ISO-8601 timestamp string back into epoch milliseconds. -/
def parseISO (s : String) : Option Nat := parseIsoChars s.data

/-- One element of the array that `exportRunLogAsJSON` builds: the flat record
`{ label, plannedDurationMs, actualDurationMs, startedAtISO, endedAtISO }`. -/
structure ExportEntry where
  label : String
  plannedDurationMs : Nat
  actualDurationMs : Int
  startedAtISO : String
  endedAtISO : String
deriving DecidableEq, Repr

/-- Model of `exportRunLogAsJSON` from `timer-model.js`: the `map` that builds
the export array, renaming fields and rendering both `Date`s with
`toISOString`.  The final `JSON.stringify(exportArr, null, 2)` is the JS
builtin rendering of this array of flat records and is kept at the structured
level. -/
def exportRunLogAsJSON (log : List RunLogEntry) : List ExportEntry :=
  log.map fun e =>
    ⟨e.label, e.plannedDuration, e.actualElapsed,
      toISOString e.startedAt, toISOString e.endedAt⟩

/-- Parse one export-array element back into a run-log entry. -/
def parseExportEntry (x : ExportEntry) : Option RunLogEntry :=
  match parseISO x.startedAtISO with
  | none => none
  | some st =>
  match parseISO x.endedAtISO with
  | none => none
  | some en => some ⟨x.label, x.plannedDurationMs, st, en, x.actualDurationMs⟩

/-- Parse a whole export array back into a run log, in order. -/
def parseRunLogExport : List ExportEntry → Option (List RunLogEntry)
  | [] => some []
  | x :: xs =>
      match parseExportEntry x with
      | none => none
      | some e =>
          match parseRunLogExport xs with
          | none => none
          | some rest => some (e :: rest)

/-- A concrete mid-run state used by witnesses: timer A (block 1, 60 s) has
been running since instant 0 and timer B (block 2, 120 s) is queued.  It is
the state reached by enqueueing A and B and starting the queue at instant
0. -/
def runningState : AppState :=
  { timerQueue := [⟨2, 120000, "B"⟩]
    runLog := []
    isRunning := true
    runningTimer := some ⟨1, 60000, "A", 0⟩
    runningTimerStart := some 0
    soundLevel := "off"
    storedSoundLevel := none }

/-- A concrete two-element queue used by witnesses. -/
def witnessQueue : List Timer := [⟨1, 60000, "A"⟩, ⟨2, 120000, "B"⟩]

/-! ### Calendar and parser lemmas -/

theorem daysInYear_bounds (y : Nat) : 365 ≤ daysInYear y ∧ daysInYear y ≤ 366 := by
  unfold daysInYear; split <;> omega

theorem div4_shift (y : Nat) :
    (y + 1 + 3) / 4 = (y + 3) / 4 + (if y % 4 = 0 then 1 else 0) := by
  split <;> omega

theorem div100_shift (y : Nat) :
    (y + 1 + 99) / 100 = (y + 99) / 100 + (if y % 100 = 0 then 1 else 0) := by
  split <;> omega

theorem div400_shift (y : Nat) :
    (y + 1 + 399) / 400 = (y + 399) / 400 + (if y % 400 = 0 then 1 else 0) := by
  split <;> omega

theorem yearStart_succ (y : Nat) (h : 1970 ≤ y) :
    yearStart (y + 1) = yearStart y + daysInYear y := by
  have h4 := div4_shift y
  have h100 := div100_shift y
  have h400 := div400_shift y
  cases hL : isLeap y with
  | true =>
      have hc := of_decide_eq_true hL
      have hd : daysInYear y = 366 := by unfold daysInYear; rw [hL]; rfl
      rw [hd]; unfold yearStart
      split_ifs at h4 h100 h400 <;> omega
  | false =>
      have hc := of_decide_eq_false hL
      have hd : daysInYear y = 365 := by unfold daysInYear; rw [hL]; rfl
      rw [hd]; unfold yearStart
      split_ifs at h4 h100 h400 <;> omega

theorem yearStart_big (y : Nat) (h : 10000 ≤ y) : 2932896 < yearStart y := by
  unfold yearStart; omega

theorem yearAndDoyAux_spec (fuel : Nat) : ∀ y z, z < fuel → 1970 ≤ y →
    yearStart y + z =
        yearStart (yearAndDoyAux fuel y z).1 + (yearAndDoyAux fuel y z).2 ∧
      (yearAndDoyAux fuel y z).2 < daysInYear (yearAndDoyAux fuel y z).1 ∧
      1970 ≤ (yearAndDoyAux fuel y z).1 := by
  induction fuel with
  | zero => intro y z hz hy; exact absurd hz (Nat.not_lt_zero z)
  | succ fuel ih =>
      intro y z hz hy
      simp only [yearAndDoyAux]
      split
      · rename_i hle
        have hb := daysInYear_bounds y
        have := ih (y + 1) (z - daysInYear y) (by omega) (by omega)
        have hys := yearStart_succ y hy
        exact ⟨by omega, this.2.1, this.2.2⟩
      · rename_i hgt
        refine ⟨rfl, ?_, hy⟩
        dsimp only
        omega

theorem yearAndDoy_spec (z : Nat) :
    yearStart 1970 + z = yearStart (yearAndDoy 1970 z).1 + (yearAndDoy 1970 z).2 ∧
      (yearAndDoy 1970 z).2 < daysInYear (yearAndDoy 1970 z).1 ∧
      1970 ≤ (yearAndDoy 1970 z).1 :=
  yearAndDoyAux_spec (z + 1) 1970 z (by omega) (by omega)

set_option maxRecDepth 10000 in
theorem monthLevel (b : Bool) : ∀ z, z < (if b then 366 else 365) →
    monthStart b (monthAndDom (monthDays b) 1 z).1 +
        ((monthAndDom (monthDays b) 1 z).2 - 1) = z ∧
      1 ≤ (monthAndDom (monthDays b) 1 z).1 ∧
      (monthAndDom (monthDays b) 1 z).1 ≤ 12 ∧
      1 ≤ (monthAndDom (monthDays b) 1 z).2 ∧
      (monthAndDom (monthDays b) 1 z).2 ≤ 31 := by
  cases b
  · intro z hz
    have : z < 365 := by simpa using hz
    revert this z
    decide
  · intro z hz
    have : z < 366 := by simpa using hz
    revert this z
    decide

theorem daysFromCivil_civilFromDays (z : Nat) :
    daysFromCivil (civilFromDays z).1 (civilFromDays z).2.1 (civilFromDays z).2.2
      = z := by
  obtain ⟨heq, hlt, hge⟩ := yearAndDoy_spec z
  have h1970 : yearStart 1970 = 0 := by decide
  have hdiy : daysInYear (yearAndDoy 1970 z).1 =
      (if isLeap (yearAndDoy 1970 z).1 then 366 else 365) := rfl
  have hdo2 : (yearAndDoy 1970 z).2 <
      (if isLeap (yearAndDoy 1970 z).1 then 366 else 365) := by omega
  have hm := monthLevel (isLeap (yearAndDoy 1970 z).1) (yearAndDoy 1970 z).2 hdo2
  unfold civilFromDays daysFromCivil
  simp only
  omega

theorem civilFromDays_bounds (z : Nat) (hz : z ≤ 2932896) :
    (civilFromDays z).1 ≤ 9999 ∧ 1 ≤ (civilFromDays z).2.1 ∧
      (civilFromDays z).2.1 ≤ 12 ∧
      1 ≤ (civilFromDays z).2.2 ∧ (civilFromDays z).2.2 ≤ 31 := by
  obtain ⟨heq, hlt, hge⟩ := yearAndDoy_spec z
  have h1970 : yearStart 1970 = 0 := by decide
  have hdiy : daysInYear (yearAndDoy 1970 z).1 =
      (if isLeap (yearAndDoy 1970 z).1 then 366 else 365) := rfl
  have hdo2 : (yearAndDoy 1970 z).2 <
      (if isLeap (yearAndDoy 1970 z).1 then 366 else 365) := by omega
  have hm := monthLevel (isLeap (yearAndDoy 1970 z).1) (yearAndDoy 1970 z).2 hdo2
  have hy : (yearAndDoy 1970 z).1 ≤ 9999 := by
    by_contra hbig
    have := yearStart_big (yearAndDoy 1970 z).1 (by omega)
    omega
  unfold civilFromDays
  simp only
  exact ⟨hy, hm.2.1, hm.2.2.1, hm.2.2.2.1, hm.2.2.2.2⟩

theorem digitVal_digitChar : ∀ d, d < 10 → digitVal (digitChar d) = some d := by
  decide

theorem read2_pad2 (n : Nat) (hn : n < 100) (rest : List Char) :
    read2 (pad2 n ++ rest) = some (n, rest) := by
  have h1 := digitVal_digitChar (n / 10) (by omega)
  have h2 := digitVal_digitChar (n % 10) (by omega)
  simp only [pad2, List.cons_append, List.nil_append, read2, h1, h2]
  congr 1
  refine Prod.ext ?_ rfl
  simp only
  omega

theorem read3_pad3 (n : Nat) (hn : n < 1000) (rest : List Char) :
    read3 (pad3 n ++ rest) = some (n, rest) := by
  have h1 := digitVal_digitChar (n / 100) (by omega)
  have h2 := digitVal_digitChar (n / 10 % 10) (by omega)
  have h3 := digitVal_digitChar (n % 10) (by omega)
  simp only [pad3, List.cons_append, List.nil_append, read3, h1, h2, h3]
  congr 1
  refine Prod.ext ?_ rfl
  simp only
  omega

theorem read4_pad4 (n : Nat) (hn : n < 10000) (rest : List Char) :
    read4 (pad4 n ++ rest) = some (n, rest) := by
  have h1 := digitVal_digitChar (n / 1000) (by omega)
  have h2 := digitVal_digitChar (n / 100 % 10) (by omega)
  have h3 := digitVal_digitChar (n / 10 % 10) (by omega)
  have h4 := digitVal_digitChar (n % 10) (by omega)
  simp only [pad4, List.cons_append, List.nil_append, read4, h1, h2, h3, h4]
  congr 1
  refine Prod.ext ?_ rfl
  simp only
  omega

theorem expectChar_cons (c : Char) (rest : List Char) :
    expectChar c (c :: rest) = some rest := by
  simp [expectChar]

theorem parseISO_toISOString (t : Nat) (ht : t < 253402300800000) :
    parseISO (toISOString t) = some t := by
  have hz : t / 86400000 ≤ 2932896 := by omega
  obtain ⟨hy, hm1, hm2, hd1, hd2⟩ := civilFromDays_bounds (t / 86400000) hz
  have hrt := daysFromCivil_civilFromDays (t / 86400000)
  show parseIsoChars (isoChars t) = some t
  unfold isoChars
  simp only
  rw [parseIsoChars]
  rw [read4_pad4 (civilFromDays (t / 86400000)).1 (by omega)]
  dsimp only
  rw [expectChar_cons]
  dsimp only
  rw [read2_pad2 (civilFromDays (t / 86400000)).2.1 (by omega)]
  dsimp only
  rw [expectChar_cons]
  dsimp only
  rw [read2_pad2 (civilFromDays (t / 86400000)).2.2 (by omega)]
  dsimp only
  rw [expectChar_cons]
  dsimp only
  rw [read2_pad2 (t % 86400000 / 3600000) (by omega)]
  dsimp only
  rw [expectChar_cons]
  dsimp only
  rw [read2_pad2 (t % 86400000 % 3600000 / 60000) (by omega)]
  dsimp only
  rw [expectChar_cons]
  dsimp only
  rw [read2_pad2 (t % 86400000 % 60000 / 1000) (by omega)]
  dsimp only
  rw [expectChar_cons]
  dsimp only
  rw [read3_pad3 (t % 86400000 % 1000) (by omega)]
  dsimp only
  rw [expectChar_cons]
  dsimp only
  rw [hrt]
  simp only [Option.some.injEq]
  omega

example : toISOString 0 = "1970-01-01T00:00:00.000Z" := by decide
example : parseISO "1970-01-01T00:00:00.000Z" = some 0 := by decide

/-! ### Controller invariants -/

theorem inv_initState : Inv initState := by
  constructor
  · simp [initState]
  · intro rt h
    simp [initState] at h

theorem inv_startNextTimer (now : Nat) (s : AppState) (hrun : s.isRunning = true) :
    Inv (startNextTimer now s) := by
  unfold startNextTimer
  cases hq : s.timerQueue with
  | nil =>
      exact ⟨by simp, fun rt h => by simp at h⟩
  | cons t rest =>
      refine ⟨by simp [hrun], fun rt h => ?_⟩
      simp only [Option.some.injEq] at h
      subst h
      rfl

theorem inv_step (e : Event) (now : Nat) (s : AppState) (h : Inv s) :
    Inv (step e now s).1 := by
  obtain ⟨h1, h2⟩ := h
  cases e with
  | addTimer b d l => exact ⟨h1, h2⟩
  | startQueue =>
      show Inv (handleStartQueue now s).1
      unfold handleStartQueue
      split
      · exact ⟨h1, h2⟩
      · split
        · exact ⟨h1, h2⟩
        · exact inv_startNextTimer now _ rfl
  | deleteClick b =>
      show Inv (deleteButtonClick b now s)
      unfold deleteButtonClick
      split
      · rename_i rt hrt
        split
        · apply inv_startNextTimer
          rw [hrt] at h1
          exact h1.mpr rfl
        · exact ⟨h1, h2⟩
      · exact ⟨h1, h2⟩
  | tick =>
      show Inv (intervalTick now s)
      unfold intervalTick
      split
      · rename_i rt hrt
        split
        · apply inv_startNextTimer
          rw [hrt] at h1
          exact h1.mpr rfl
        · exact ⟨h1, h2⟩
      · exact ⟨h1, h2⟩
  | clearAll =>
      show Inv (handleClearAll s)
      unfold handleClearAll
      by_cases hc : (s.isRunning && s.runningTimer.isSome) = true
      · rw [if_pos hc]
        exact ⟨by simp, fun rt hh => by simp at hh⟩
      · rw [if_neg hc]
        exact ⟨h1, h2⟩
  | clearLog => exact ⟨h1, h2⟩
  | exportLog => exact ⟨h1, h2⟩
  | soundChange lvl ok =>
      cases ok <;> exact ⟨h1, h2⟩

theorem reachable_inv {s : AppState} (h : Reachable s) : Inv s := by
  induction h with
  | init => exact inv_initState
  | next e now hs ih => exact inv_step e now _ ih

theorem reachable_runningState : Reachable runningState := by
  have h1 := Reachable.next (Event.addTimer 1 60000 "A") 0 Reachable.init
  have h2 := Reachable.next (Event.addTimer 2 120000 "B") 0 h1
  have h3 := Reachable.next Event.startQueue 0 h2
  have he : (step Event.startQueue 0 ((step (Event.addTimer 2 120000 "B") 0
      ((step (Event.addTimer 1 60000 "A") 0 initState).1)).1)).1 = runningState := by
    decide
  rw [he] at h3
  exact h3

/-! ### Claims -/

/-- C2: in every reachable state of the system (after any sequence of events
has run to quiescence) the `isRunning` flag is `true` exactly when a
running-timer handle is present. -/
theorem c2_running_iff_handle (s : AppState) (h : Reachable s) :
    s.isRunning = true ↔ s.runningTimer.isSome = true :=
  (reachable_inv h).1

/-- Witness for C2: the invariant instantiated at the concrete reachable
mid-run state. -/
theorem c2_running_iff_handle_witness :
    runningState.isRunning = true ↔ runningState.runningTimer.isSome = true :=
  c2_running_iff_handle runningState reachable_runningState

/-- C5: calling start() while a timer is already running is rejected: the
handler alerts "A timer is already running" and returns with the entire state
(queue, log, running flag, handle, preferences) unchanged. -/
theorem c5_start_while_running_rejected (s : AppState) (now : Nat)
    (h : s.isRunning = true) :
    step Event.startQueue now s = (s, ⟨some "A timer is already running", []⟩) := by
  show handleStartQueue now s = _
  unfold handleStartQueue
  rw [if_pos h]

/-- Witness for C5 at the concrete mid-run state. -/
theorem c5_start_while_running_rejected_witness :
    step Event.startQueue 7 runningState =
      (runningState, ⟨some "A timer is already running", []⟩) :=
  c5_start_while_running_rejected runningState 7 rfl

/-- C10: calling start() while idle with an empty queue is a silent no-op:
no alert, no warnings, and the state (running flag still false, queue, log,
handle) is returned unchanged. -/
theorem c10_start_empty_noop (s : AppState) (now : Nat)
    (h1 : s.isRunning = false) (h2 : s.timerQueue = []) :
    step Event.startQueue now s = (s, noOutput) := by
  show handleStartQueue now s = _
  unfold handleStartQueue
  rw [h1, h2]
  rfl

/-- Witness for C10 at the initial state. -/
theorem c10_start_empty_noop_witness :
    step Event.startQueue 3 initState = (initState, noOutput) :=
  c10_start_empty_noop initState 3 rfl rfl

/-- C6: clearAll() from any reachable state empties the queue, discards the
handle, resets the running flag, and leaves the run log exactly as it was
(no entry is written for a discarded active timer, none removed). -/
theorem c6_clearAll_resets (s : AppState) (now : Nat) (h : Reachable s) :
    (step Event.clearAll now s).1.timerQueue = [] ∧
      (step Event.clearAll now s).1.runningTimer = none ∧
      (step Event.clearAll now s).1.isRunning = false ∧
      (step Event.clearAll now s).1.runLog = s.runLog := by
  obtain ⟨h1, h2⟩ := reachable_inv h
  show (handleClearAll s).timerQueue = [] ∧ (handleClearAll s).runningTimer = none ∧
    (handleClearAll s).isRunning = false ∧ (handleClearAll s).runLog = s.runLog
  unfold handleClearAll
  by_cases hc : (s.isRunning && s.runningTimer.isSome) = true
  · rw [if_pos hc]
    exact ⟨rfl, rfl, rfl, rfl⟩
  · rw [if_neg hc]
    have hcc : ¬(s.isRunning = true ∧ s.runningTimer.isSome = true) := by
      simpa [Bool.and_eq_true] using hc
    have hr : s.isRunning = false := by
      cases hR : s.isRunning with
      | false => rfl
      | true => exact absurd ⟨hR, h1.mp hR⟩ hcc
    have hn : s.runningTimer = none := by
      cases hN : s.runningTimer with
      | none => rfl
      | some rt =>
          exact absurd ⟨h1.mpr (by rw [hN]; rfl), by rw [hN]; rfl⟩ hcc
    exact ⟨rfl, hn, hr, rfl⟩

/-- Witness for C6: clearAll from the concrete mid-run state. -/
theorem c6_clearAll_resets_witness :
    (step Event.clearAll 9 runningState).1.timerQueue = [] ∧
      (step Event.clearAll 9 runningState).1.runningTimer = none ∧
      (step Event.clearAll 9 runningState).1.isRunning = false ∧
      (step Event.clearAll 9 runningState).1.runLog = runningState.runLog :=
  c6_clearAll_resets runningState 9 reachable_runningState

/-- C9: setSoundLevel never fails: a recognized level is stored as given, an
unrecognized one is normalized to 'off' with at least one console warning
(never an exception); timer state is untouched; a persistence failure is
swallowed, leaving the saved preference as it was. -/
theorem c9_setSoundLevel_normalizes (level : String) (persistOk : Bool)
    (s : AppState) :
    ((setSoundLevel level persistOk s).1.soundLevel =
        if getSoundLevels.contains level then level else "off") ∧
      (getSoundLevels.contains level = false →
        (setSoundLevel level persistOk s).2 ≠ []) ∧
      (getSoundLevels.contains level = true ∧ persistOk = true →
        (setSoundLevel level persistOk s).2 = []) ∧
      (persistOk = false →
        (setSoundLevel level persistOk s).1.storedSoundLevel =
          s.storedSoundLevel) ∧
      (setSoundLevel level persistOk s).1.timerQueue = s.timerQueue ∧
      (setSoundLevel level persistOk s).1.runLog = s.runLog ∧
      (setSoundLevel level persistOk s).1.isRunning = s.isRunning ∧
      (setSoundLevel level persistOk s).1.runningTimer = s.runningTimer ∧
      (setSoundLevel level persistOk s).1.runningTimerStart =
        s.runningTimerStart := by
  unfold setSoundLevel
  by_cases hp : getSoundLevels.contains level = true <;> cases persistOk <;>
    simp [hp]

/-- Witness for C9: an unrecognized level on the initial state with failing
persistence. -/
theorem c9_setSoundLevel_normalizes_witness :
    ((setSoundLevel "blaring" false initState).1.soundLevel =
        if getSoundLevels.contains "blaring" then "blaring" else "off") ∧
      (getSoundLevels.contains "blaring" = false →
        (setSoundLevel "blaring" false initState).2 ≠ []) ∧
      (getSoundLevels.contains "blaring" = true ∧ false = true →
        (setSoundLevel "blaring" false initState).2 = []) ∧
      (false = false →
        (setSoundLevel "blaring" false initState).1.storedSoundLevel =
          initState.storedSoundLevel) ∧
      (setSoundLevel "blaring" false initState).1.timerQueue =
        initState.timerQueue ∧
      (setSoundLevel "blaring" false initState).1.runLog = initState.runLog ∧
      (setSoundLevel "blaring" false initState).1.isRunning =
        initState.isRunning ∧
      (setSoundLevel "blaring" false initState).1.runningTimer =
        initState.runningTimer ∧
      (setSoundLevel "blaring" false initState).1.runningTimerStart =
        initState.runningTimerStart := by
  exact c9_setSoundLevel_normalizes "blaring" false initState

/-- C7: removeTimerFromQueue removes exactly the first entry whose block
matches and reports `true`, leaving the earlier and later entries in their
relative order; with no match it reports `false` and returns the queue
unchanged (and in particular never fails). -/
theorem c7_removeByIdentity (q : List Timer) (block : Nat) :
    (¬(∃ t ∈ q, t.block = block) → removeTimerFromQueue block q = (false, q)) ∧
      ((∃ t ∈ q, t.block = block) →
        ∃ l1 t l2, q = l1 ++ t :: l2 ∧ t.block = block ∧
          (∀ u ∈ l1, u.block ≠ block) ∧
          removeTimerFromQueue block q = (true, l1 ++ l2)) := by
  induction q with
  | nil =>
      refine ⟨fun _ => rfl, fun h => ?_⟩
      simp at h
  | cons a as ih =>
      obtain ⟨ih1, ih2⟩ := ih
      by_cases ha : (a.block == block) = true
      · have ha2 : a.block = block := by simpa using ha
        refine ⟨fun h => absurd ⟨a, by simp, ha2⟩ h,
          fun _ => ⟨[], a, as, by simp, ha2, by simp, ?_⟩⟩
        unfold removeTimerFromQueue
        rw [List.findIdx?_cons, if_pos ha]
        rfl
      · have ha2 : ¬a.block = block := by simpa using ha
        constructor
        · intro h
          have hno : ¬(∃ t ∈ as, t.block = block) := by
            rintro ⟨t, ht, hb⟩
            exact h ⟨t, by simp [ht], hb⟩
          have h0 := ih1 hno
          unfold removeTimerFromQueue at h0 ⊢
          rw [List.findIdx?_cons, if_neg ha, List.findIdx?_succ]
          cases hf : List.findIdx? (fun t => t.block == block) as with
          | none => rfl
          | some i =>
              rw [hf] at h0
              simp at h0
        · intro h
          have hex : ∃ t ∈ as, t.block = block := by
            obtain ⟨t, ht, hb⟩ := h
            rcases List.mem_cons.mp ht with rfl | hmem
            · exact absurd hb ha2
            · exact ⟨t, hmem, hb⟩
          obtain ⟨l1, t, l2, hq, hb, hnone, hrm⟩ := ih2 hex
          refine ⟨a :: l1, t, l2, by rw [hq]; rfl, hb, ?_, ?_⟩
          · intro u hu
            rcases List.mem_cons.mp hu with rfl | hmem
            · exact ha2
            · exact hnone u hmem
          · unfold removeTimerFromQueue at hrm ⊢
            rw [List.findIdx?_cons, if_neg ha, List.findIdx?_succ]
            cases hf : List.findIdx? (fun t => t.block == block) as with
            | none =>
                rw [hf] at hrm
                simp at hrm
            | some i =>
                rw [hf] at hrm
                simp at hrm
                simp [List.eraseIdx_cons_succ, hrm]

/-- Witness for C7: removing block 2 from the concrete two-element queue. -/
theorem c7_removeByIdentity_witness :
    ∃ l1 t l2, witnessQueue = l1 ++ t :: l2 ∧ t.block = 2 ∧
      (∀ u ∈ l1, u.block ≠ 2) ∧
      removeTimerFromQueue 2 witnessQueue = (true, l1 ++ l2) :=
  (c7_removeByIdentity witnessQueue 2).2 (by decide)

/-- C1 counterexample: from the reachable state in which timer A (block 1) is
active and timer B is queued, cancelling the active timer does NOT return the
system to Idle - the queue-runner auto-advances: B becomes the active timer
immediately, the queue empties, and the running flag stays `true` (the claim
says the running flag is cleared and the next queued timer is not started). -/
theorem c1_cancel_counterexample :
    Reachable runningState ∧
      runningState.runningTimer = some ⟨1, 60000, "A", 0⟩ ∧
      runningState.timerQueue = [⟨2, 120000, "B"⟩] ∧
      (step (Event.deleteClick 1) 10000 runningState).1.isRunning = true ∧
      (step (Event.deleteClick 1) 10000 runningState).1.runningTimer =
        some ⟨2, 120000, "B", 10000⟩ ∧
      (step (Event.deleteClick 1) 10000 runningState).1.timerQueue = [] :=
  ⟨reachable_runningState, by decide, by decide, by decide, by decide, by decide⟩

/-- C1 (amended): when the active timer is cancelled while at least one spec
remains queued, the countdown stops and exactly one run-log entry is appended
for the cancelled spec, its handle is discarded - but the queue-runner then
auto-advances immediately: the former queue head becomes the new active timer
(started at the cancellation instant), the queue drops its head, and the
running flag is left unchanged (still set); the system does not return to
Idle. -/
theorem c1_cancel_auto_advances (s : AppState) (rt : ActiveRun) (t : Timer)
    (rest : List Timer) (now : Nat)
    (hrt : s.runningTimer = some rt) (hq : s.timerQueue = t :: rest) :
    (step (Event.deleteClick rt.block) now s).1.runningTimer =
        some ⟨t.block, t.duration, t.label, now⟩ ∧
      (step (Event.deleteClick rt.block) now s).1.timerQueue = rest ∧
      (step (Event.deleteClick rt.block) now s).1.isRunning = s.isRunning ∧
      (step (Event.deleteClick rt.block) now s).1.runningTimerStart = some now ∧
      (step (Event.deleteClick rt.block) now s).1.runLog =
        s.runLog ++ [⟨rt.label, rt.duration, s.runningTimerStart.getD 0, now,
          (now : Int) - (s.runningTimerStart.getD 0 : Int)⟩] := by
  show (deleteButtonClick rt.block now s).runningTimer = _ ∧
    (deleteButtonClick rt.block now s).timerQueue = _ ∧
    (deleteButtonClick rt.block now s).isRunning = _ ∧
    (deleteButtonClick rt.block now s).runningTimerStart = _ ∧
    (deleteButtonClick rt.block now s).runLog = _
  unfold deleteButtonClick
  simp only [hrt]
  rw [if_pos (beq_self_eq_true rt.block)]
  unfold startNextTimer
  simp [hq]

/-- Witness for C1 (amended) at the concrete mid-run state. -/
theorem c1_cancel_auto_advances_witness :
    (step (Event.deleteClick 1) 10000 runningState).1.runningTimer =
        some ⟨2, 120000, "B", 10000⟩ ∧
      (step (Event.deleteClick 1) 10000 runningState).1.timerQueue = [] ∧
      (step (Event.deleteClick 1) 10000 runningState).1.isRunning =
        runningState.isRunning ∧
      (step (Event.deleteClick 1) 10000 runningState).1.runningTimerStart =
        some 10000 ∧
      (step (Event.deleteClick 1) 10000 runningState).1.runLog =
        runningState.runLog ++ [⟨"A", 60000,
          runningState.runningTimerStart.getD 0, 10000,
          (10000 : Int) - (runningState.runningTimerStart.getD 0 : Int)⟩] :=
  c1_cancel_auto_advances runningState ⟨1, 60000, "A", 0⟩ ⟨2, 120000, "B"⟩ []
    10000 rfl rfl

/-- C3: a timer that reaches its planned duration without cancellation
(the interval callback observes `remaining <= 0` at instant `now`) appends
exactly one run-log entry whose label and planned duration are those of the
completed spec, whose `actualElapsedMs = endedAt - startedAt`, and whose
actual elapsed time is at least the planned duration. -/
theorem c3_natural_completion_logs (s : AppState) (rt : ActiveRun) (now : Nat)
    (hre : Reachable s) (hrt : s.runningTimer = some rt)
    (hdue : rt.startTime + rt.duration ≤ now) :
    (step Event.tick now s).1.runLog =
        s.runLog ++ [⟨rt.label, rt.duration, rt.startTime, now,
          (now : Int) - (rt.startTime : Int)⟩] ∧
      (rt.duration : Int) ≤ (now : Int) - (rt.startTime : Int) := by
  have hstart := (reachable_inv hre).2 rt hrt
  constructor
  · show (intervalTick now s).runLog = _
    unfold intervalTick
    simp only [hrt]
    rw [if_pos hdue]
    unfold startNextTimer
    simp only [hstart]
    cases hq : s.timerQueue with
    | nil => rfl
    | cons t rest => rfl
  · omega

/-- Witness for C3: the 60 s timer A completes naturally at instant 60000. -/
theorem c3_natural_completion_logs_witness :
    (step Event.tick 60000 runningState).1.runLog =
        runningState.runLog ++ [⟨"A", 60000, 0, 60000,
          (60000 : Int) - ((0 : Nat) : Int)⟩] ∧
      ((60000 : Nat) : Int) ≤ (60000 : Int) - ((0 : Nat) : Int) :=
  c3_natural_completion_logs runningState ⟨1, 60000, "A", 0⟩ 60000
    reachable_runningState rfl (by decide)

theorem runLog_startNextTimer (now : Nat) (s : AppState) :
    (startNextTimer now s).runLog = s.runLog := by
  unfold startNextTimer
  split <;> rfl

theorem runLog_handleStartQueue (now : Nat) (s : AppState) :
    (handleStartQueue now s).1.runLog = s.runLog := by
  unfold handleStartQueue
  split
  · rfl
  · split
    · rfl
    · exact runLog_startNextTimer now _

/-- C4: cancelling the currently active timer appends exactly one run-log
entry, recording the spec's label and planned duration and
`actualElapsedMs = endedAt - startedAt`; this elapsed time can be strictly
below the planned duration (shown at a reachable state); and no event other
than a cancellation of the active timer ever adds an entry whose
`actualElapsedMs` is below its planned duration. -/
theorem c4_cancellation_entry :
    (∀ (s : AppState) (rt : ActiveRun) (now : Nat), s.runningTimer = some rt →
      (step (Event.deleteClick rt.block) now s).1.runLog =
        s.runLog ++ [⟨rt.label, rt.duration, s.runningTimerStart.getD 0, now,
          (now : Int) - (s.runningTimerStart.getD 0 : Int)⟩]) ∧
    (∃ e : RunLogEntry, Reachable runningState ∧
      runningState.runningTimer.isSome = true ∧
      (step (Event.deleteClick 1) 10000 runningState).1.runLog =
        runningState.runLog ++ [e] ∧
      e.actualElapsed < (e.plannedDuration : Int)) ∧
    (∀ (s : AppState) (ev : Event) (now : Nat), Reachable s →
      (∀ b rt, ev = Event.deleteClick b → s.runningTimer = some rt →
        rt.block ≠ b) →
      ∀ en ∈ (step ev now s).1.runLog,
        en ∈ s.runLog ∨ (en.plannedDuration : Int) ≤ en.actualElapsed) := by
  refine ⟨?_, ?_, ?_⟩
  · intro s rt now hrt
    show (deleteButtonClick rt.block now s).runLog = _
    unfold deleteButtonClick
    simp only [hrt]
    rw [if_pos (beq_self_eq_true rt.block)]
    simp only [runLog_startNextTimer]
  · exact ⟨⟨"A", 60000, 0, 10000, 10000⟩, reachable_runningState, by decide,
      by decide, by decide⟩
  · intro s ev now hre hnc en hen
    cases ev with
    | addTimer b d l => exact .inl hen
    | startQueue =>
        replace hen : en ∈ (handleStartQueue now s).1.runLog := hen
        rw [runLog_handleStartQueue] at hen
        exact .inl hen
    | deleteClick b =>
        replace hen : en ∈ (deleteButtonClick b now s).runLog := hen
        unfold deleteButtonClick at hen
        split at hen
        · rename_i rt hrt
          split at hen
          · rename_i hbeq
            have : rt.block = b := by simpa using hbeq
            exact absurd this (hnc b rt rfl hrt)
          · exact .inl hen
        · exact .inl hen
    | tick =>
        replace hen : en ∈ (intervalTick now s).runLog := hen
        unfold intervalTick at hen
        split at hen
        · rename_i rt hrt
          split at hen
          · rename_i hdue
            simp only [runLog_startNextTimer] at hen
            rcases List.mem_append.mp hen with h1 | h1
            · exact .inl h1
            · right
              have hstart := (reachable_inv hre).2 rt hrt
              simp only [List.mem_singleton] at h1
              subst h1
              show ((rt.duration : Nat) : Int) ≤
                (now : Int) - (s.runningTimerStart.getD 0 : Int)
              rw [hstart]
              simp only [Option.getD_some]
              omega
          · exact .inl hen
        · exact .inl hen
    | clearAll =>
        replace hen : en ∈ (handleClearAll s).runLog := hen
        unfold handleClearAll at hen
        split at hen
        · exact .inl hen
        · exact .inl hen
    | clearLog =>
        replace hen : en ∈ ([] : List RunLogEntry) := hen
        exact absurd hen (List.not_mem_nil en)
    | exportLog => exact .inl hen
    | soundChange lvl ok => cases ok <;> exact .inl hen

/-- Witness for C4: the appended-entry part instantiated at the concrete
mid-run state. -/
theorem c4_cancellation_entry_witness :
    (step (Event.deleteClick 1) 10000 runningState).1.runLog =
      runningState.runLog ++ [⟨"A", 60000,
        runningState.runningTimerStart.getD 0, 10000,
        (10000 : Int) - (runningState.runningTimerStart.getD 0 : Int)⟩] :=
  c4_cancellation_entry.1 runningState ⟨1, 60000, "A", 0⟩ 10000 rfl

/-- C8: exporting the run log mutates nothing (the export handler returns the
state unchanged with no user-facing output), and parsing the export array -
the structure handed to `JSON.stringify` - yields exactly the appended
entries, in insertion order, equal in label, planned and actual duration and
both ISO-rendered timestamps, for timestamps within the plain
four-digit-year ISO range. -/
theorem c8_export_pure_roundtrip :
    (∀ (s : AppState) (now : Nat), step Event.exportLog now s = (s, noOutput)) ∧
      (∀ log : List RunLogEntry,
        (∀ e ∈ log,
          e.startedAt < 253402300800000 ∧ e.endedAt < 253402300800000) →
        parseRunLogExport (exportRunLogAsJSON log) = some log) := by
  refine ⟨fun s now => rfl, fun log => ?_⟩
  induction log with
  | nil => intro hb; rfl
  | cons e es ih =>
      intro hb
      have hbe := hb e (by simp)
      have ihe := ih (fun x hx => hb x (List.mem_cons_of_mem e hx))
      show parseRunLogExport (exportRunLogAsJSON (e :: es)) = _
      simp only [exportRunLogAsJSON, List.map_cons] at ihe ⊢
      rw [parseRunLogExport]
      unfold parseExportEntry
      dsimp only
      rw [parseISO_toISOString e.startedAt hbe.1,
        parseISO_toISOString e.endedAt hbe.2]
      dsimp only
      rw [ihe]

/-- Witness for C8: the round trip of a concrete one-entry log. -/
theorem c8_export_pure_roundtrip_witness :
    parseRunLogExport (exportRunLogAsJSON [⟨"A", 60000, 0, 10000, 10000⟩]) =
      some [⟨"A", 60000, 0, 10000, 10000⟩] :=
  c8_export_pure_roundtrip.2 [⟨"A", 60000, 0, 10000, 10000⟩] (by decide)

end TimerApp
